import Mathlib

/-
  Verification development for the hype_train trading bot.

  Shallow embedding conventions:
  * Python floats are modelled as rationals (ℚ); the programs under
    verification only add, subtract, multiply, divide and compare them.
  * Division by zero (a ZeroDivisionError crash in Python) is modelled by
    ℚ's total division; all reachable call sites divide by nonzero values,
    and the claims under scrutiny only touch such inputs.
  * External collaborators (the Binance/mock provider) are modelled as
    explicit parameters/oracles: orders returned by the venue, reported
    balances and per-cycle fetch outcomes are inputs to the functions in
    this file, matching the spec's "external collaborator" boundary.
  * Exceptions become Except/Option values or explicit Bool flags; state
    mutation becomes state passing.
-/

deriving instance DecidableEq for Except

namespace HypeTrain

/-- Trade configuration (config.py, Config.Trade). -/
structure TradeConfig where
  ignitesToTrigger : ℕ
  stopLoss : ℚ
  takeProfit : ℚ
  updateIntervalSec : ℚ
  maxCoinsToTrade : ℕ
  treasuryRatio : ℚ
  minimumBuyPrice : ℚ
  dividendFromProfit : ℚ
deriving DecidableEq

/-- Order side (providers/consts.py, OrderSide). -/
inductive OrderSide where
  | sideBuy
  | sideSell
deriving DecidableEq

/-- One execution fill (providers/models.py, OrderFill); the trade id is
irrelevant to every claim and is omitted. -/
structure OrderFill where
  price : ℚ
  quantity : ℚ
  commission : ℚ
deriving DecidableEq

/-- OrderFill.total_price (providers/models.py). -/
def OrderFill.totalPrice (f : OrderFill) : ℚ := f.price * f.quantity

/-- OrderFill.buy_outcome (providers/models.py): commission is charged in the
asset on a buy. -/
def OrderFill.buyOutcome (f : OrderFill) : ℚ := f.quantity - f.commission

/-- OrderFill.sell_outcome (providers/models.py): commission is charged in the
origin currency on a sell. -/
def OrderFill.sellOutcome (f : OrderFill) : ℚ := f.totalPrice - f.commission

/-- An order, an aggregate of fills (providers/models.py, Order); identifiers
and timestamps are irrelevant to every claim and are omitted. -/
structure Order where
  side : OrderSide
  fills : List OrderFill
deriving DecidableEq

/-- Order.outcome (providers/models.py): side-dependent accumulation over the
fills, written with the same left fold as the Python loop. -/
def Order.outcome (o : Order) : ℚ :=
  match o.side with
  | .sideSell => o.fills.foldl (fun acc f => acc + f.sellOutcome) 0
  | .sideBuy => o.fills.foldl (fun acc f => acc + f.buyOutcome) 0

/-- Order.price (providers/models.py): gross sum of the fills' total prices. -/
def Order.price (o : Order) : ℚ :=
  o.fills.foldl (fun acc f => acc + f.totalPrice) 0

/-- Realized profit and loss of a sell against a buy (providers/models.py,
OrderPnL). The Python field names ratio/absolute are kept up to the
naming constraints of this development. -/
structure OrderPnL where
  ratioVal : ℚ
  absolute : ℚ
deriving DecidableEq

/-- Order.pnl (providers/models.py lines 154-160): what we got in ORIGIN
divided by (resp. minus) what we paid in ORIGIN. The side-check RuntimeError
guard of the source is enforced by construction at every call site of this
development (a sell order is always compared against a buy order). -/
def Order.pnl (sell buy : Order) : OrderPnL :=
  ⟨sell.outcome / buy.price, sell.outcome - buy.price⟩

/-- Reason a position was liquidated (position.py, LiquidationReason). -/
inductive LiquidationReason where
  | forced
  | stopLoss
  | takeProfit
deriving DecidableEq

/-- Outcome of a closed position (position.py, PositionResult). -/
structure PositionResult where
  origin : String
  buyOrder : Order
  sellOrder : Order
  liquidationReason : LiquidationReason
deriving DecidableEq

/-- PositionResult.pnl (position.py lines 26-28). -/
def PositionResult.pnl (r : PositionResult) : OrderPnL :=
  Order.pnl r.sellOrder r.buyOrder

/-- PositionResults.total_pnl_absolute (position.py lines 42-46), written with
the same accumulating loop as the source. -/
def totalPnlAbsolute (results : List PositionResult) : ℚ :=
  results.foldl (fun total r => total + (PositionResult.pnl r).absolute) 0

/-- An open position (position.py, Position). The buy order is the order the
venue returned at opening; `baseTicker` is the quote-to-asset conversion rate
of the ticker the position was opened from. Metrics, logging and the global
position-id counter are omitted. -/
structure Position where
  heldFor : ℕ
  baseTicker : ℚ
  buyOrder : Order
deriving DecidableEq

/-- Aggregate wallet result (wallet.py, WalletResult). -/
structure WalletResult where
  pnlRatioVal : ℚ
  pnlAbsolute : ℚ
deriving DecidableEq

/-- Wallet ledger state (wallet.py, Wallet): the externally queried initial
balance, the tradable capital, the protected savings, and the recorded
position results. -/
structure Wallet where
  initialBalance : ℚ
  capital : ℚ
  savings : ℚ
  results : List PositionResult
deriving DecidableEq

/-- Wallet.__init__ (wallet.py lines 37-40): capital is the treasury share of
the reported balance, savings the rest. -/
def Wallet.init (cfg : TradeConfig) (balance : ℚ) : Wallet :=
  ⟨balance, balance * cfg.treasuryRatio, balance - balance * cfg.treasuryRatio, []⟩

/-- Wallet.pnl (wallet.py lines 59-64). -/
def Wallet.pnl (w : Wallet) : WalletResult :=
  let pnlAbs := totalPnlAbsolute w.results
  ⟨pnlAbs / w.initialBalance, pnlAbs⟩

/-- Wallet.record_sell (wallet.py lines 66-84). The freshly reported external
account balance (`get_account_balance(...).amount` in the source) is the
parameter `reportedBalance`. The returned Bool is true exactly when the
source raises InsufficientFundsException; note the state is fully updated
before the raise, as in the source. -/
def Wallet.recordSell (cfg : TradeConfig) (w : Wallet) (r : PositionResult)
    (reportedBalance : ℚ) : Wallet × Bool :=
  let dividend : ℚ :=
    if 1 < (PositionResult.pnl r).ratioVal then
      (PositionResult.pnl r).absolute * cfg.dividendFromProfit
    else 0
  let savings' := w.savings + dividend
  let capital' := reportedBalance - savings'
  (⟨w.initialBalance, capital', savings', w.results ++ [r]⟩, decide (capital' ≤ 0))

/-- Wallet.record_acquisition (wallet.py lines 86-88). -/
def Wallet.recordAcquisition (w : Wallet) (p : Position) : Wallet :=
  { w with capital := w.capital - p.buyOrder.price }

/-- Errors raised by Wallet.budget_for_acquisition: the source raises
AttributeError for too many open positions and InsufficientFundsException
when the budget exceeds the capital. -/
inductive BudgetError where
  | tooManySlots
  | insufficientFunds
deriving DecidableEq

/-- Wallet.budget_for_acquisition (wallet.py lines 90-102). -/
def Wallet.budgetForAcquisition (cfg : TradeConfig) (w : Wallet)
    (activePositions : ℕ) : Except BudgetError ℚ :=
  if cfg.maxCoinsToTrade ≤ activePositions then .error .tooManySlots
  else
    let budget := w.capital / ((cfg.maxCoinsToTrade : ℚ) - (activePositions : ℚ))
    let budget := max budget cfg.minimumBuyPrice
    if w.capital < budget then .error .insufficientFunds
    else .ok budget

/-- Asset._was_ignited (asset.py lines 58-66). The ticker history is the
list of conversion_origin_asset rates, newest last; the Python negative
index `history[-k]` is element `length - k`. The loop returns False as soon
as some price among the most recent N is below its predecessor; otherwise
the ratio of the newest price to the N-th most recent price gates the
trigger. -/
def wasIgnited (n : ℕ) (h : List ℚ) : Bool :=
  if h.length < n + 1 then false
  else if (List.range n).any
      (fun i => decide (h.getD (h.length - 1 - i) 0 < h.getD (h.length - 2 - i) 0)) then
    false
  else decide (1 < h.getD (h.length - 1) 0 / h.getD (h.length - n) 0)

/-- Modelled from the spec: the literal reading of the spec sentence
"Trigger fires iff every consecutive pair in the most recent N prices is
non-decreasing AND the ratio of the newest price to the price N ticks back
is strictly greater than 1" — the most recent N prices contain N-1
consecutive pairs, and the price N ticks back from the newest (index
length-1) is the element at index length-1-N. Declared only to compare the
spec's words with the source's `wasIgnited`. -/
def ignitionSpecLiteral (n : ℕ) (h : List ℚ) : Bool :=
  if h.length < n + 1 then false
  else if (List.range (n - 1)).any
      (fun i => decide (h.getD (h.length - 1 - i) 0 < h.getD (h.length - 2 - i) 0)) then
    false
  else decide (1 < h.getD (h.length - 1) 0 / h.getD (h.length - 1 - n) 0)

/-- Errors raised by an Asset (asset.py lines 17-22). -/
inductive AssetError where
  | positionAlreadyOpened
  | positionNotOpened
deriving DecidableEq

/-- Per-asset tracker state (asset.py, Asset): the bounded ticker-history
window (rates, newest last) and at most one open position. -/
structure Asset where
  tickerHistory : List ℚ
  position : Option Position
deriving DecidableEq

/-- Asset.log_ticker (asset.py lines 55-56): append to the deque of capacity
ignites_to_trigger + 2, evicting the oldest entry on overflow. -/
def Asset.logTicker (cfg : TradeConfig) (a : Asset) (rate : ℚ) : Asset :=
  let h := a.tickerHistory ++ [rate]
  { a with tickerHistory := h.drop (h.length - (cfg.ignitesToTrigger + 2)) }

/-- Asset.try_open_position (asset.py lines 68-79). The buy order the venue
would return is an explicit parameter (the provider is external); the source
raises PositionAlreadyOpenedException when a position is open, opens a
Position from the newest ticker when the detector fired, and returns None
otherwise. The budget is only passed through to the venue. -/
def Asset.tryOpenPosition (cfg : TradeConfig) (a : Asset) (venueBuyOrder : Order)
    (_budget : ℚ) : Except AssetError (Asset × Option Position) :=
  if a.position.isSome then .error .positionAlreadyOpened
  else if wasIgnited cfg.ignitesToTrigger a.tickerHistory then
    let p : Position := ⟨0, a.tickerHistory.getLastD 0, venueBuyOrder⟩
    .ok ({ a with position := some p }, some p)
  else .ok (a, none)

/-- The liquidation decision applied by Position.try_liquidate (position.py
lines 118-124), as a function of the simulated profit ratio and the force
flag: stop-loss, then take-profit, then forced, else no action. -/
def liquidationDecision (cfg : TradeConfig) (profitRatioVal : ℚ)
    (force : Bool) : Option LiquidationReason :=
  if profitRatioVal < cfg.stopLoss then some .stopLoss
  else if cfg.takeProfit ≤ profitRatioVal then some .takeProfit
  else if force then some .forced
  else none

/-- Position.try_liquidate (position.py lines 114-124). The simulated sell
order returned by the venue for the current ticker (provider.sell_order with
simulation=True) and the actual market sell the venue would fill are explicit
parameters; the held-for counter is incremented first, then the potential
profit ratio (Order.pnl of the simulated sell against the buy) selects the
liquidation policy branch. -/
def Position.tryLiquidate (cfg : TradeConfig) (p : Position) (originName : String)
    (simSell actualSell : Order) (force : Bool) : Position × Option PositionResult :=
  let p' := { p with heldFor := p.heldFor + 1 }
  let profitRatioVal := (Order.pnl simSell p.buyOrder).ratioVal
  match liquidationDecision cfg profitRatioVal force with
  | some reason => (p', some ⟨originName, p.buyOrder, actualSell, reason⟩)
  | none => (p', none)

/-
  Orchestrator model (account.py, Account.trade and its helpers).

  The trade loop's interactions with the outside world — ticker fetches,
  simulated sell quotes, venue errors, the insolvency verdict of
  Wallet.record_sell on the freshly reported balance, position openings and
  the cancellation signal — are supplied by per-cycle oracle events; the
  control flow (which try/except catches what, which loop breaks or
  returns) is translated statement by statement from account.py.
  Each asset of the (fixed) asset universe is a Bool: does it currently
  hold an open position. The wallet's numeric bookkeeping is verified
  separately and is abstracted here into the per-sale insolvency verdict.
-/

/-- Outcome of one call to Account._fetch_asset_tickers inside the trade
loop: success, a transient requests error (ReadTimeout/ConnectionError), or
a fatal RuntimeError. -/
inductive FetchOutcome where
  | ok
  | transient
  | fatal
deriving DecidableEq

/-- Oracle event for one close attempt of one asset with an open position
(account.py lines 84-96): `sellErr` — the liquidation attempt raised a
caught AttributeError/BinanceAPIException (sizing or venue rejection);
`simRatioVal` — the simulated profit ratio Position.try_liquidate computes
for the current ticker; `insolvent` — Wallet.record_sell raises
InsufficientFundsException for this sale. -/
structure CloseEvent where
  sellErr : Bool
  simRatioVal : ℚ
  insolvent : Bool
deriving DecidableEq

/-- Oracle event for one open attempt of one asset without an open position
(account.py lines 105-116): nothing happened (no trigger, or a caught
budget/venue error), a position was opened, or budget_for_acquisition raised
InsufficientFundsException (which breaks the active loop). -/
inductive OpenEvent where
  | idle
  | opened
  | insolvencyStop
deriving DecidableEq

/-- Oracle events for one cycle of the trade loop. `closes` and `opens` are
positional: the i-th event belongs to the i-th asset. `cancel` is the value
of `self._trader_event.wait(...)`. -/
structure CycleEvent where
  fetch : FetchOutcome
  closes : List CloseEvent
  opens : List OpenEvent
  cancel : Bool
deriving DecidableEq

/-- Number of assets currently holding an open position
(Account._count_open_positions, account.py lines 66-67). -/
def countOpen (assets : List Bool) : ℕ := assets.count true

/-- Account._try_close_positions (account.py lines 79-96), folded over the
assets and their per-asset oracle events. Returns the new per-asset open
flags and whether InsufficientFundsException propagated out of the method
(in which case the remaining assets are not visited). A caught error leaves
the asset's position open; a liquidation decision closes it (the asset
clears its position before record_sell runs, as in asset.py lines 84-90). -/
def tryClosePositions (cfg : TradeConfig) (force : Bool) :
    List Bool → List CloseEvent → List Bool × Bool
  | [], _ => ([], false)
  | assets, [] => (assets, false)
  | isOpen :: assets, e :: evs =>
    if isOpen = false then
      let r := tryClosePositions cfg force assets evs
      (false :: r.1, r.2)
    else if e.sellErr then
      let r := tryClosePositions cfg force assets evs
      (true :: r.1, r.2)
    else
      match liquidationDecision cfg e.simRatioVal force with
      | none =>
        let r := tryClosePositions cfg force assets evs
        (true :: r.1, r.2)
      | some _ =>
        if e.insolvent then (false :: assets, true)
        else
          let r := tryClosePositions cfg force assets evs
          (false :: r.1, r.2)

/-- Account._try_open_new_positions (account.py lines 98-116). `done` holds
the assets already visited; the open-position count is re-computed over the
whole universe before every asset, and the method returns early once it
reaches max_coins_to_trade. An insolvencyStop event propagates
InsufficientFundsException out of the method. -/
def tryOpenNewPositions (cfg : TradeConfig) (done : List Bool) :
    List Bool → List OpenEvent → List Bool × Bool
  | [], _ => (done, false)
  | assets, [] => (done ++ assets, false)
  | isOpen :: assets, e :: evs =>
    if cfg.maxCoinsToTrade ≤ countOpen (done ++ isOpen :: assets) then
      (done ++ isOpen :: assets, false)
    else if isOpen then tryOpenNewPositions cfg (done ++ [true]) assets evs
    else
      match e with
      | .insolvencyStop => (done ++ false :: assets, true)
      | .opened => tryOpenNewPositions cfg (done ++ [true]) assets evs
      | .idle => tryOpenNewPositions cfg (done ++ [false]) assets evs

/-- How one cycle of the active trade loop ends. -/
inductive CycleExit where
  | next
  | brk
  | fatalReturn
deriving DecidableEq

/-- One iteration of the active trade loop (account.py lines 120-137):
a fatal fetch returns from trade(); a transient requests error skips the
iteration; otherwise positions are closed (an insolvency raised there is
caught at line 131 and breaks), then opened (likewise); finally the
cancellation wait decides between breaking and the next cycle. -/
def activeCycle (cfg : TradeConfig) (assets : List Bool) (ev : CycleEvent) :
    List Bool × CycleExit :=
  match ev.fetch with
  | .fatal => (assets, .fatalReturn)
  | .transient => (assets, if ev.cancel then .brk else .next)
  | .ok =>
    let c := tryClosePositions cfg false assets ev.closes
    if c.2 then (c.1, .brk)
    else
      let o := tryOpenNewPositions cfg [] c.1 ev.opens
      if o.2 then (o.1, .brk)
      else (o.1, if ev.cancel then .brk else .next)

/-- The active phase of Account.trade (the `while True` loop, account.py
lines 120-137). `none` means the loop was still running when the supplied
events ran out; `some (assets, fatal)` means it terminated, with `fatal`
recording whether termination was the early `return` on a fatal fetch
(which skips draining and the terminal sweep). -/
def activeLoop (cfg : TradeConfig) : List CycleEvent → List Bool → Option (List Bool × Bool)
  | [], _ => none
  | ev :: evs, assets =>
    match activeCycle cfg assets ev with
    | (a, .fatalReturn) => some (a, true)
    | (a, .brk) => some (a, false)
    | (a, .next) => activeLoop cfg evs a

/-- The draining phase of Account.trade (account.py lines 141-155): while
positions remain open, fetch (a fatal RuntimeError returns from trade(); a
transient requests error is not caught here and kills the session) and try
to close without force; an InsufficientFundsException raised by a sale is
caught at line 152 and leaves the drain loop, proceeding to the sweep.
`none` means the drain loop was still running when the events ran out;
the Bool of the result records "the session died before the sweep". -/
def drainLoop (cfg : TradeConfig) : List CycleEvent → List Bool → Option (List Bool × Bool)
  | [], assets => if countOpen assets = 0 then some (assets, false) else none
  | ev :: evs', assets =>
    if countOpen assets = 0 then some (assets, false)
    else
      match ev.fetch with
      | .fatal => some (assets, true)
      | .transient => some (assets, true)
      | .ok =>
        let r := tryClosePositions cfg false assets ev.closes
        if r.2 then some (r.1, false)
        else drainLoop cfg evs' r.1

/-- Account.trade (account.py lines 118-159): the active loop, then the
drain loop, then the terminal sweep — one final fetch plus
_try_close_positions(force=True). A fatal fetch (or, in drain and sweep, an
uncaught transient error) ends the session without the sweep; the result
Bool records that abnormal end. `none` means the session outlived the
supplied oracle events. -/
def trade (cfg : TradeConfig) (activeEvs drainEvs : List CycleEvent)
    (sweepEv : CycleEvent) (initAssets : List Bool) : Option (List Bool × Bool) :=
  match activeLoop cfg activeEvs initAssets with
  | none => none
  | some (a1, true) => some (a1, true)
  | some (a1, false) =>
    match drainLoop cfg drainEvs a1 with
    | none => none
    | some (a2, true) => some (a2, true)
    | some (a2, false) =>
      match sweepEv.fetch with
      | .fatal => some (a2, true)
      | .transient => some (a2, true)
      | .ok =>
        let s := tryClosePositions cfg true a2 sweepEv.closes
        some (s.1, false)

/-- A wallet-mutating (or read-only) operation, for stating invariants over
operation sequences: a recorded sale (with the freshly reported balance), a
recorded acquisition, or a budget query (which never mutates the wallet). -/
inductive WalletOp where
  | sell (r : PositionResult) (reportedBalance : ℚ)
  | acquisition (p : Position)
  | budget (activePositions : ℕ)
deriving DecidableEq

/-- Effect of one wallet operation on the wallet state. A sale's state
update happens even when record_sell raises (the raise is last, wallet.py
lines 83-84); budget_for_acquisition reads but never writes. -/
def execOp (cfg : TradeConfig) (w : Wallet) : WalletOp → Wallet
  | .sell r reportedBalance => (Wallet.recordSell cfg w r reportedBalance).1
  | .acquisition p => Wallet.recordAcquisition w p
  | .budget _ => w

/-- Effect of a sequence of wallet operations. -/
def execOps (cfg : TradeConfig) (w : Wallet) (ops : List WalletOp) : Wallet :=
  ops.foldl (execOp cfg) w

/-- Does this operation record a sale whose buy order has positive gross
price? Vacuously true for the other operations. -/
def sellBuyPricePos : WalletOp → Bool
  | .sell r _ => decide (0 < Order.price (PositionResult.buyOrder r))
  | _ => true

/-
  Concrete fixtures used by witnesses and counterexamples.
-/

/-- A buy order of one fill: gross price 100, no commission. -/
def buyOrderFix : Order := ⟨.sideBuy, [⟨1, 100, 0⟩]⟩

/-- A sell order of one fill: proceeds 150, no commission. -/
def sellOrderFix : Order := ⟨.sideSell, [⟨3/2, 100, 0⟩]⟩

/-- A profitable closed position: pnl ratio 3/2, pnl absolute 50. -/
def resultFix : PositionResult := ⟨"LTC", buyOrderFix, sellOrderFix, .takeProfit⟩

/-- A benign configuration: trigger length 2, stop-loss 9/10, take-profit
11/10, two position slots, treasury ratio 1/2, minimum buy 1, dividend
rate 1/10. -/
def cfgFix : TradeConfig := ⟨2, 9/10, 11/10, 5, 2, 1/2, 1, 1/10⟩

/-- A wallet fixture: initial balance 1000, capital 12, savings 10. -/
def walletFix : Wallet := ⟨1000, 12, 10, []⟩

/-- An asset tracker that already holds an open position. -/
def assetOpenFix : Asset := ⟨[1, 2], some ⟨0, 2, buyOrderFix⟩⟩

/-- An asset tracker with no position whose window ignites the detector of
cfgFix (trigger length 2). -/
def assetReadyFix : Asset := ⟨[1, 1, 2], none⟩

/-- A close event that triggers nothing: no error, simulated ratio 1 (inside
the stop-loss/take-profit band of cfgFix), solvent. -/
def closeIdleFix : CloseEvent := ⟨false, 1, false⟩

/-- An active cycle over two assets: fetch succeeds, both assets open a
position, the cancellation signal arrives. -/
def cycleOpenTwoFix : CycleEvent := ⟨.ok, [closeIdleFix, closeIdleFix], [.opened, .opened], true⟩

/-- A drain cycle over two assets: the first asset's position hits the
stop-loss (ratio 0) and its sale reports insolvency. -/
def cycleDrainInsolventFix : CycleEvent := ⟨.ok, [⟨false, 0, true⟩, closeIdleFix], [], false⟩

/-- A sweep cycle over two assets in which the second asset's forced
liquidation fails with a caught venue/sizing error. -/
def cycleSweepErrFix : CycleEvent := ⟨.ok, [closeIdleFix, ⟨true, 0, false⟩], [], false⟩

/-- An active cycle over one asset: it opens a position, then cancellation. -/
def cycleOpenOneFix : CycleEvent := ⟨.ok, [closeIdleFix], [.opened], true⟩

/-- A drain cycle over one asset whose position hits the stop-loss and sells
without incident. -/
def cycleDrainCloseFix : CycleEvent := ⟨.ok, [⟨false, 0, false⟩], [], false⟩

/-- A sweep cycle over one asset with a clean close event. -/
def cycleSweepOkFix : CycleEvent := ⟨.ok, [⟨false, 1, false⟩], [], false⟩

/-
  Theorems. Helper lemmas come first, then one theorem (plus witness or
  counterexample where required) per claim.
-/

/-- An accumulating left fold of rationals equals the seed plus the sum of
the mapped list. -/
theorem foldl_add_eq_sum {α : Type} (f : α → ℚ) (c : ℚ) (l : List α) :
    l.foldl (fun acc x => acc + f x) c = c + (l.map f).sum := by
  induction l generalizing c with
  | nil => simp
  | cons x xs ih => simp [List.foldl_cons, ih, add_assoc]

/-- The accumulating loop of PositionResults.total_pnl_absolute computes the
sum of the recorded results' absolute PnLs. -/
theorem totalPnlAbsolute_eq_sum (rs : List PositionResult) :
    totalPnlAbsolute rs = (rs.map (fun r => (PositionResult.pnl r).absolute)).sum := by
  simpa using foldl_add_eq_sum (fun r => (PositionResult.pnl r).absolute) 0 rs

/-- A sale whose pnl ratio exceeds 1 has positive absolute pnl, provided the
buy order's gross price is positive. -/
theorem pnl_absolute_pos (r : PositionResult)
    (hbuy : 0 < Order.price (PositionResult.buyOrder r))
    (hr : 1 < (PositionResult.pnl r).ratioVal) :
    0 < (PositionResult.pnl r).absolute := by
  have h := (one_lt_div hbuy).mp (by simpa [PositionResult.pnl, Order.pnl] using hr)
  simpa [PositionResult.pnl, Order.pnl, sub_pos] using h

/-- No wallet operation changes the externally queried initial balance. -/
theorem execOps_initialBalance (cfg : TradeConfig) (w : Wallet) (ops : List WalletOp) :
    (execOps cfg w ops).initialBalance = w.initialBalance := by
  induction ops generalizing w with
  | nil => rfl
  | cons op ops ih =>
    have h1 : (execOp cfg w op).initialBalance = w.initialBalance := by
      cases op <;> simp [execOp, Wallet.recordSell, Wallet.recordAcquisition]
    calc (execOps cfg w (op :: ops)).initialBalance
        = (execOp cfg w op).initialBalance := ih (execOp cfg w op)
      _ = w.initialBalance := h1

/-- Claim C3: budget_for_acquisition raises the too-many-slots error when
openCount is at least max_coins_to_trade; below that bound it computes
budget = max(capital / (maxSlots - openCount), minimum_buy_price), raises
InsufficientFundsException exactly when that budget exceeds the capital,
and any budget it returns never exceeds the capital. -/
theorem budgetForAcquisition_spec (cfg : TradeConfig) (w : Wallet) (n : ℕ) :
    (cfg.maxCoinsToTrade ≤ n →
      Wallet.budgetForAcquisition cfg w n = .error .tooManySlots) ∧
    (n < cfg.maxCoinsToTrade →
      (w.capital < max (w.capital / ((cfg.maxCoinsToTrade : ℚ) - (n : ℚ))) cfg.minimumBuyPrice →
        Wallet.budgetForAcquisition cfg w n = .error .insufficientFunds) ∧
      (max (w.capital / ((cfg.maxCoinsToTrade : ℚ) - (n : ℚ))) cfg.minimumBuyPrice ≤ w.capital →
        Wallet.budgetForAcquisition cfg w n =
          .ok (max (w.capital / ((cfg.maxCoinsToTrade : ℚ) - (n : ℚ))) cfg.minimumBuyPrice)) ∧
      (∀ b, Wallet.budgetForAcquisition cfg w n = .ok b → b ≤ w.capital)) := by
  refine ⟨fun h => ?_, fun h => ⟨fun hlt => ?_, fun hle => ?_, fun b hb => ?_⟩⟩
  · simp [Wallet.budgetForAcquisition, h]
  · simp [Wallet.budgetForAcquisition, not_le.mpr h, hlt]
  · simp [Wallet.budgetForAcquisition, not_le.mpr h, not_lt.mpr hle]
  · unfold Wallet.budgetForAcquisition at hb
    rw [if_neg (not_le.mpr h)] at hb
    by_cases hc :
        w.capital < max (w.capital / ((cfg.maxCoinsToTrade : ℚ) - (n : ℚ))) cfg.minimumBuyPrice
    · rw [if_pos hc] at hb
      exact absurd hb (by simp)
    · rw [if_neg hc] at hb
      have hbb : max (w.capital / ((cfg.maxCoinsToTrade : ℚ) - (n : ℚ))) cfg.minimumBuyPrice = b := by
        simpa using hb
      rw [← hbb]
      exact not_lt.mp hc

/-- Witness for C3 at the wallet fixture: two slots, capital 12 — a request
with both slots taken errs with too-many-slots, a request with one slot
taken returns budget 12. -/
theorem budgetForAcquisition_spec_witness :
    Wallet.budgetForAcquisition cfgFix walletFix 2 = .error .tooManySlots ∧
    Wallet.budgetForAcquisition cfgFix walletFix 1 = .ok 12 := by
  constructor
  · exact (budgetForAcquisition_spec cfgFix walletFix 2).1 (by decide)
  · have h := ((budgetForAcquisition_spec cfgFix walletFix 1).2 (by decide)).2.1
      (by with_unfolding_all decide)
    rw [h]
    with_unfolding_all decide

/-- Claim C4: record_sell adds the dividend (if any) to savings, then
overwrites the capital with the freshly reported external balance minus the
updated savings, and raises InsufficientFundsException exactly when that
re-derived capital is at most 0. -/
theorem recordSell_reconciles_capital (cfg : TradeConfig) (w : Wallet)
    (r : PositionResult) (bal : ℚ) :
    (Wallet.recordSell cfg w r bal).1.savings
      = w.savings + (if 1 < (PositionResult.pnl r).ratioVal
          then (PositionResult.pnl r).absolute * cfg.dividendFromProfit else 0) ∧
    (Wallet.recordSell cfg w r bal).1.capital
      = bal - (Wallet.recordSell cfg w r bal).1.savings ∧
    ((Wallet.recordSell cfg w r bal).2 = true ↔
      (Wallet.recordSell cfg w r bal).1.capital ≤ 0) := by
  refine ⟨rfl, rfl, ?_⟩
  simp [Wallet.recordSell]

/-- Claim C5: a sale with pnl ratio above 1 strictly increases savings by
exactly absolute * dividend rate; a sale with pnl ratio at most 1 leaves
savings unchanged. Stated for a positive dividend rate and a positive
gross buy price (the configuration and data domain of the system). -/
theorem recordSell_savings_dividend (cfg : TradeConfig) (w : Wallet)
    (r : PositionResult) (bal : ℚ)
    (hrate : 0 < cfg.dividendFromProfit)
    (hbuy : 0 < Order.price (PositionResult.buyOrder r)) :
    (1 < (PositionResult.pnl r).ratioVal →
      (Wallet.recordSell cfg w r bal).1.savings
        = w.savings + (PositionResult.pnl r).absolute * cfg.dividendFromProfit ∧
      w.savings < (Wallet.recordSell cfg w r bal).1.savings) ∧
    ((PositionResult.pnl r).ratioVal ≤ 1 →
      (Wallet.recordSell cfg w r bal).1.savings = w.savings) := by
  constructor
  · intro hr
    have habs : 0 < (PositionResult.pnl r).absolute := pnl_absolute_pos r hbuy hr
    have hdiv : 0 < (PositionResult.pnl r).absolute * cfg.dividendFromProfit :=
      mul_pos habs hrate
    constructor
    · simp [Wallet.recordSell, hr]
    · simp only [Wallet.recordSell, if_pos hr]
      linarith
  · intro hr
    simp [Wallet.recordSell, not_lt.mpr hr]

/-- Witness for C5 at the fixtures: dividend rate 1/10, buy price 100, sale
ratio 3/2 — savings move from 10 to 15. -/
theorem recordSell_savings_dividend_witness :
    (Wallet.recordSell cfgFix walletFix resultFix 14).1.savings = 15 := by
  have h := (recordSell_savings_dividend cfgFix walletFix resultFix 14
    (by with_unfolding_all decide) (by with_unfolding_all decide)).1
    (by with_unfolding_all decide)
  rw [h.1]
  with_unfolding_all decide

/-- Claim C8: across any sequence of wallet operations, savings never
decrease — acquisitions and budget queries leave savings unchanged, and a
recorded sale adds a non-negative dividend (dividend rate in [0, 1],
positive gross buy prices). -/
theorem savings_monotone (cfg : TradeConfig) (w : Wallet) (ops : List WalletOp)
    (hrate0 : 0 ≤ cfg.dividendFromProfit) (hrate1 : cfg.dividendFromProfit ≤ 1)
    (hpos : ∀ op ∈ ops, sellBuyPricePos op = true) :
    w.savings ≤ (execOps cfg w ops).savings := by
  induction ops generalizing w with
  | nil => simp [execOps]
  | cons op ops ih =>
    have h1 : w.savings ≤ (execOp cfg w op).savings := by
      cases op with
      | sell r bal =>
        have hb : 0 < Order.price (PositionResult.buyOrder r) := by
          have hsp := hpos _ (List.mem_cons_self _ _)
          simpa [sellBuyPricePos] using hsp
        by_cases hr : 1 < (PositionResult.pnl r).ratioVal
        · have habs : 0 < (PositionResult.pnl r).absolute := pnl_absolute_pos r hb hr
          have hdiv : 0 ≤ (PositionResult.pnl r).absolute * cfg.dividendFromProfit :=
            mul_nonneg habs.le hrate0
          simp only [execOp, Wallet.recordSell, if_pos hr]
          linarith
        · simp [execOp, Wallet.recordSell, hr]
      | acquisition p => simp [execOp, Wallet.recordAcquisition]
      | budget n => simp [execOp]
    have h2 : execOps cfg w (op :: ops) = execOps cfg (execOp cfg w op) ops := rfl
    rw [h2]
    exact h1.trans (ih (execOp cfg w op) (fun o ho => hpos o (List.mem_cons_of_mem _ ho)))

/-- Witness for C8: a three-operation run (acquisition, budget query,
profitable sale) on the fixtures moves savings from 10 up to 15. -/
theorem savings_monotone_witness :
    walletFix.savings ≤ (execOps cfgFix walletFix
      [.acquisition ⟨0, 1, buyOrderFix⟩, .budget 0, .sell resultFix 1000]).savings := by
  refine savings_monotone cfgFix walletFix _ (by with_unfolding_all decide)
    (by with_unfolding_all decide) ?_
  intro op hop
  fin_cases hop <;> with_unfolding_all decide

/-- Claim C9: after any operation run from a freshly initialized wallet,
pnl().absolute is the sum of the recorded results' absolute PnLs and
pnl()'s ratio is that sum divided by the initial balance queried at
initialization. -/
theorem pnl_roundtrip (cfg : TradeConfig) (b : ℚ) (ops : List WalletOp) :
    (Wallet.pnl (execOps cfg (Wallet.init cfg b) ops)).pnlAbsolute
      = ((execOps cfg (Wallet.init cfg b) ops).results.map
          (fun r => (PositionResult.pnl r).absolute)).sum ∧
    (Wallet.pnl (execOps cfg (Wallet.init cfg b) ops)).pnlRatioVal
      = ((execOps cfg (Wallet.init cfg b) ops).results.map
          (fun r => (PositionResult.pnl r).absolute)).sum / b := by
  constructor
  · simp [Wallet.pnl, totalPnlAbsolute_eq_sum]
  · have hib : (execOps cfg (Wallet.init cfg b) ops).initialBalance = b :=
      execOps_initialBalance cfg (Wallet.init cfg b) ops
    simp [Wallet.pnl, totalPnlAbsolute_eq_sum, hib]

/-- Claim C10: when record_sell raises InsufficientFundsException, the
wallet state was already mutated: the result is appended (a subsequent
pnl() includes it), the dividend is already in savings, and the capital
already holds the reconciled, non-positive value. -/
theorem recordSell_mutates_before_raise (cfg : TradeConfig) (w w' : Wallet)
    (r : PositionResult) (bal : ℚ)
    (h : Wallet.recordSell cfg w r bal = (w', true)) :
    w'.results = w.results ++ [r] ∧
    (Wallet.pnl w').pnlAbsolute
      = totalPnlAbsolute w.results + (PositionResult.pnl r).absolute ∧
    w'.savings = w.savings + (if 1 < (PositionResult.pnl r).ratioVal
        then (PositionResult.pnl r).absolute * cfg.dividendFromProfit else 0) ∧
    w'.capital = bal - w'.savings ∧
    w'.capital ≤ 0 := by
  have hw : w' = (Wallet.recordSell cfg w r bal).1 := by rw [h]
  have hflag : (Wallet.recordSell cfg w r bal).2 = true := by rw [h]
  subst hw
  refine ⟨rfl, ?_, rfl, rfl, ?_⟩
  · simp [Wallet.pnl, totalPnlAbsolute_eq_sum, Wallet.recordSell]
  · simpa [Wallet.recordSell] using hflag

set_option maxRecDepth 8000 in
/-- Witness for C10: the fixture sale (dividend 5) against a reported
balance of 14 re-derives capital -1 ≤ 0, raising, with the state already
mutated. -/
theorem recordSell_mutates_before_raise_witness :
    (⟨1000, -1, 15, [resultFix]⟩ : Wallet).results = walletFix.results ++ [resultFix] ∧
    (Wallet.pnl (⟨1000, -1, 15, [resultFix]⟩ : Wallet)).pnlAbsolute
      = totalPnlAbsolute walletFix.results + (PositionResult.pnl resultFix).absolute ∧
    (⟨1000, -1, 15, [resultFix]⟩ : Wallet).savings
      = walletFix.savings + (if 1 < (PositionResult.pnl resultFix).ratioVal
          then (PositionResult.pnl resultFix).absolute * cfgFix.dividendFromProfit else 0) ∧
    (⟨1000, -1, 15, [resultFix]⟩ : Wallet).capital
      = 14 - (⟨1000, -1, 15, [resultFix]⟩ : Wallet).savings ∧
    (⟨1000, -1, 15, [resultFix]⟩ : Wallet).capital ≤ 0 :=
  recordSell_mutates_before_raise cfgFix walletFix _ resultFix 14
    (by with_unfolding_all decide)

/-- Claim C6: try_liquidate increments the held-for counter, computes the
simulated sell's pnl ratio against the buy order, and applies the fixed
precedence stop-loss, take-profit, forced, no-action. -/
theorem tryLiquidate_policy (cfg : TradeConfig) (p : Position) (originName : String)
    (simSell actualSell : Order) (force : Bool) :
    (Position.tryLiquidate cfg p originName simSell actualSell force).1.heldFor
      = p.heldFor + 1 ∧
    ((Order.pnl simSell p.buyOrder).ratioVal < cfg.stopLoss →
      (Position.tryLiquidate cfg p originName simSell actualSell force).2
        = some ⟨originName, p.buyOrder, actualSell, .stopLoss⟩) ∧
    (¬(Order.pnl simSell p.buyOrder).ratioVal < cfg.stopLoss →
      cfg.takeProfit ≤ (Order.pnl simSell p.buyOrder).ratioVal →
      (Position.tryLiquidate cfg p originName simSell actualSell force).2
        = some ⟨originName, p.buyOrder, actualSell, .takeProfit⟩) ∧
    (¬(Order.pnl simSell p.buyOrder).ratioVal < cfg.stopLoss →
      (Order.pnl simSell p.buyOrder).ratioVal < cfg.takeProfit →
      force = true →
      (Position.tryLiquidate cfg p originName simSell actualSell force).2
        = some ⟨originName, p.buyOrder, actualSell, .forced⟩) ∧
    (¬(Order.pnl simSell p.buyOrder).ratioVal < cfg.stopLoss →
      (Order.pnl simSell p.buyOrder).ratioVal < cfg.takeProfit →
      force = false →
      (Position.tryLiquidate cfg p originName simSell actualSell force).2 = none) := by
  refine ⟨?_, fun h1 => ?_, fun h1 h2 => ?_, fun h1 h2 h3 => ?_, fun h1 h2 h3 => ?_⟩
  · unfold Position.tryLiquidate
    cases hd : liquidationDecision cfg ((Order.pnl simSell p.buyOrder).ratioVal) force <;>
      simp [hd]
  · simp [Position.tryLiquidate, liquidationDecision, h1]
  · simp [Position.tryLiquidate, liquidationDecision, h1, h2]
  · simp [Position.tryLiquidate, liquidationDecision, h1, not_le.mpr h2, h3]
  · simp [Position.tryLiquidate, liquidationDecision, h1, not_le.mpr h2, h3]

/-- Witness for C6: a position held for 3 ticks with buy price 100 and a
simulated sell of 150 (ratio 3/2 ≥ take-profit 11/10) liquidates with the
take-profit reason and counter 4. -/
theorem tryLiquidate_policy_witness :
    (Position.tryLiquidate cfgFix ⟨3, 1, buyOrderFix⟩ ("LTC") sellOrderFix sellOrderFix
        false).1.heldFor = 4 ∧
    (Position.tryLiquidate cfgFix ⟨3, 1, buyOrderFix⟩ ("LTC") sellOrderFix sellOrderFix
        false).2 = some ⟨"LTC", buyOrderFix, sellOrderFix, .takeProfit⟩ := by
  constructor
  · rw [(tryLiquidate_policy cfgFix ⟨3, 1, buyOrderFix⟩ ("LTC") sellOrderFix sellOrderFix
        false).1]
  · exact (tryLiquidate_policy cfgFix ⟨3, 1, buyOrderFix⟩ ("LTC") sellOrderFix sellOrderFix
        false).2.2.1 (by with_unfolding_all decide) (by with_unfolding_all decide)

/-- Counterexample to C7 as stated: on an asset that already holds an open
position, try_open_position raises PositionAlreadyOpenedException instead
of being a no-op that returns none. -/
theorem tryOpenPosition_claim_counterexample :
    Asset.tryOpenPosition cfgFix assetOpenFix buyOrderFix 12
      = .error .positionAlreadyOpened ∧
    Asset.tryOpenPosition cfgFix assetOpenFix buyOrderFix 12 ≠ .ok (assetOpenFix, none) := by
  with_unfolding_all decide

/-- Claim C7 amended: try_open_position raises PositionAlreadyOpenedException
when a position is already open; with no open position it returns none
when the detector has not fired, and otherwise opens a Position from the
newest tick of the window. -/
theorem tryOpenPosition_characterization (cfg : TradeConfig) (a : Asset)
    (venueBuyOrder : Order) (b : ℚ) :
    (a.position.isSome = true →
      Asset.tryOpenPosition cfg a venueBuyOrder b = .error .positionAlreadyOpened) ∧
    (a.position = none → wasIgnited cfg.ignitesToTrigger a.tickerHistory = false →
      Asset.tryOpenPosition cfg a venueBuyOrder b = .ok (a, none)) ∧
    (a.position = none → wasIgnited cfg.ignitesToTrigger a.tickerHistory = true →
      Asset.tryOpenPosition cfg a venueBuyOrder b =
        .ok ({ a with position := some ⟨0, a.tickerHistory.getLastD 0, venueBuyOrder⟩ },
          some ⟨0, a.tickerHistory.getLastD 0, venueBuyOrder⟩)) := by
  refine ⟨fun h1 => ?_, fun h1 h2 => ?_, fun h1 h2 => ?_⟩
  · simp [Asset.tryOpenPosition, h1]
  · simp [Asset.tryOpenPosition, h1, h2]
  · simp [Asset.tryOpenPosition, h1, h2]

/-- Witness for the amended C7: the fired fixture window [1, 1, 2] opens a
position whose base ticker is the newest rate 2. -/
theorem tryOpenPosition_characterization_witness :
    Asset.tryOpenPosition cfgFix assetReadyFix buyOrderFix 12
      = .ok (⟨[1, 1, 2], some ⟨0, 2, buyOrderFix⟩⟩, some ⟨0, 2, buyOrderFix⟩) := by
  have h := (tryOpenPosition_characterization cfgFix assetReadyFix buyOrderFix 12).2.2
    (by with_unfolding_all decide) (by with_unfolding_all decide)
  rw [h]
  with_unfolding_all decide

/-- A getD access within bounds is a getElem access. -/
theorem getD_zero_eq_getElem (l : List ℚ) (m : ℕ) (hm : m < l.length) :
    l.getD m 0 = l[m] := by
  rw [List.getD_eq_getElem?_getD, List.getElem?_eq_getElem hm]
  rfl

/-- The early-return pair loop of _was_ignited succeeds (finds no decreasing
pair among the most recent N prices and their predecessors) exactly when the
window of the last N+1 prices is a non-decreasing chain. -/
theorem pairLoop_iff_chain (n : ℕ) (h : List ℚ) (hlen : n + 1 ≤ h.length) :
    ((List.range n).any
        (fun i => decide (h.getD (h.length - 1 - i) 0 < h.getD (h.length - 2 - i) 0)) = false) ↔
      List.Chain' (fun a b => a ≤ b) (h.drop (h.length - (n + 1))) := by
  rw [List.any_eq_false, List.chain'_iff_get]
  have hw : (h.drop (h.length - (n + 1))).length = n + 1 := by
    rw [List.length_drop]; omega
  constructor
  · intro hall i hi
    rw [hw] at hi
    have hi' : i < n := by omega
    have hj := hall (n - 1 - i) (List.mem_range.mpr (by omega))
    simp only [decide_eq_true_eq, not_lt] at hj
    rw [List.get_eq_getElem, List.get_eq_getElem, List.getElem_drop, List.getElem_drop]
    have e1 : h.length - 2 - (n - 1 - i) = h.length - (n + 1) + i := by omega
    have e2 : h.length - 1 - (n - 1 - i) = h.length - (n + 1) + (i + 1) := by omega
    rw [e1, e2] at hj
    rw [getD_zero_eq_getElem _ _ (by omega), getD_zero_eq_getElem _ _ (by omega)] at hj
    exact hj
  · intro hchain j hjmem
    rw [List.mem_range] at hjmem
    simp only [decide_eq_true_eq, not_lt]
    have hc := hchain (n - 1 - j) (by rw [hw]; omega)
    rw [List.get_eq_getElem, List.get_eq_getElem, List.getElem_drop, List.getElem_drop] at hc
    have hc' : h.getD (h.length - (n + 1) + (n - 1 - j)) 0
        ≤ h.getD (h.length - (n + 1) + (n - 1 - j + 1)) 0 := by
      rw [getD_zero_eq_getElem _ _ (by omega), getD_zero_eq_getElem _ _ (by omega)]
      exact hc
    have e1 : h.length - (n + 1) + (n - 1 - j) = h.length - 2 - j := by omega
    have e2 : h.length - (n + 1) + (n - 1 - j + 1) = h.length - 1 - j := by omega
    rw [e1, e2] at hc'
    exact hc'

/-- Counterexample to C1 as stated: with trigger length N = 2 and window
[1, 2, 2], the detector returns false (the source compares the newest price
against the price N-1 ticks back, here 2/2 = 1), while the spec's literal
condition holds (its last-N-prices pairs are non-decreasing and its ratio,
newest over the price N ticks back, is 2/1 > 1). -/
theorem wasIgnited_claim_counterexample :
    wasIgnited 2 ([1, 2, 2] : List ℚ) = false ∧
    ignitionSpecLiteral 2 ([1, 2, 2] : List ℚ) = true := by
  with_unfolding_all decide

/-- Claim C1 amended: for trigger length N ≥ 1, the detector returns true
iff the window holds at least N+1 ticks, the last N+1 prices form a
non-decreasing chain (N comparisons: each of the most recent N prices
against its predecessor), and the ratio of the newest price to the N-th
most recent price (N-1 ticks back, source index -N) is strictly greater
than 1. In particular it returns false whenever the window holds fewer
than N+1 ticks. -/
theorem wasIgnited_characterization (n : ℕ) (h : List ℚ) (hn : 1 ≤ n) :
    wasIgnited n h = true ↔
      n + 1 ≤ h.length ∧
      List.Chain' (fun a b => a ≤ b) (h.drop (h.length - (n + 1))) ∧
      1 < h.getD (h.length - 1) 0 / h.getD (h.length - n) 0 := by
  by_cases hlen : h.length < n + 1
  · simp only [wasIgnited, if_pos hlen, Bool.false_eq_true, false_iff, not_and]
    intro hcon
    omega
  · have hlen' : n + 1 ≤ h.length := by omega
    cases hany : (List.range n).any
        (fun i => decide (h.getD (h.length - 1 - i) 0 < h.getD (h.length - 2 - i) 0)) with
    | true =>
      have hnot : ¬ List.Chain' (fun a b => a ≤ b) (h.drop (h.length - (n + 1))) := by
        intro hch
        have h0 := (pairLoop_iff_chain n h hlen').mpr hch
        rw [h0] at hany
        cases hany
      have hw0 : wasIgnited n h = false := by
        unfold wasIgnited
        rw [if_neg hlen, hany]
        rfl
      rw [hw0]
      constructor
      · intro hfalse
        exact absurd hfalse (by simp)
      · rintro ⟨h1, hch, h3⟩
        exact absurd hch hnot
    | false =>
      have hw0 : wasIgnited n h
          = decide (1 < h.getD (h.length - 1) 0 / h.getD (h.length - n) 0) := by
        unfold wasIgnited
        rw [if_neg hlen, hany]
        rfl
      rw [hw0, decide_eq_true_eq]
      constructor
      · intro hrat
        exact ⟨hlen', (pairLoop_iff_chain n h hlen').mp hany, hrat⟩
      · rintro ⟨h1, h2, hrat⟩
        exact hrat

/-- Witness for the amended C1: the window [1, 1, 2] with trigger length 2
fires the detector. -/
theorem wasIgnited_characterization_witness :
    wasIgnited 2 ([1, 1, 2] : List ℚ) = true :=
  (wasIgnited_characterization 2 ([1, 1, 2] : List ℚ) (by decide)).mpr
    ⟨by decide,
     List.Chain.cons (by decide) (List.Chain.cons (by decide) List.Chain.nil),
     by with_unfolding_all decide⟩


theorem liquidationDecision_force_isSome (cfg : TradeConfig) (x : ℚ) :
    (liquidationDecision cfg x true).isSome = true := by
  unfold liquidationDecision
  by_cases h1 : x < cfg.stopLoss
  · simp [h1]
  · by_cases h2 : cfg.takeProfit ≤ x
    · simp [h1, h2]
    · simp [h1, h2]

theorem tryClosePositions_length (cfg : TradeConfig) (force : Bool) :
    ∀ (assets : List Bool) (evs : List CloseEvent),
      (tryClosePositions cfg force assets evs).1.length = assets.length := by
  intro assets
  induction assets with
  | nil => intro evs; cases evs <;> simp [tryClosePositions]
  | cons isOpen rest ih =>
    intro evs
    cases evs with
    | nil => simp [tryClosePositions]
    | cons e es =>
      cases isOpen with
      | false => simp [tryClosePositions, ih]
      | true =>
        by_cases h2 : e.sellErr = true
        · simp [tryClosePositions, h2, ih]
        · cases hd : liquidationDecision cfg e.simRatioVal force with
          | none => simp [tryClosePositions, h2, hd, ih]
          | some rs =>
            by_cases h3 : e.insolvent = true
            · simp [tryClosePositions, h2, hd, h3]
            · simp [tryClosePositions, h2, hd, h3, ih]

theorem tryOpenNewPositions_length (cfg : TradeConfig) :
    ∀ (assets done : List Bool) (evs : List OpenEvent),
      (tryOpenNewPositions cfg done assets evs).1.length = done.length + assets.length := by
  intro assets
  induction assets with
  | nil => intro done evs; cases evs <;> simp [tryOpenNewPositions]
  | cons isOpen rest ih =>
    intro done evs
    cases evs with
    | nil => simp [tryOpenNewPositions]
    | cons e es =>
      by_cases hc : cfg.maxCoinsToTrade ≤ countOpen (done ++ isOpen :: rest)
      · simp [tryOpenNewPositions, hc]
      · cases isOpen with
        | true =>
          simp [tryOpenNewPositions, hc, ih]
          omega
        | false =>
          cases e with
          | insolvencyStop => simp [tryOpenNewPositions, hc]
          | opened =>
            simp [tryOpenNewPositions, hc, ih]
            omega
          | idle =>
            simp [tryOpenNewPositions, hc, ih]
            omega

theorem activeCycle_length (cfg : TradeConfig) (assets : List Bool) (ev : CycleEvent) :
    (activeCycle cfg assets ev).1.length = assets.length := by
  unfold activeCycle
  cases ev.fetch with
  | fatal => rfl
  | transient => rfl
  | ok =>
    by_cases h1 : (tryClosePositions cfg false assets ev.closes).2
    · simp [h1, tryClosePositions_length]
    · by_cases h2 : (tryOpenNewPositions cfg []
          (tryClosePositions cfg false assets ev.closes).1 ev.opens).2
      · simp [h1, h2, tryOpenNewPositions_length, tryClosePositions_length]
      · simp [h1, h2, tryOpenNewPositions_length, tryClosePositions_length]

theorem activeLoop_length (cfg : TradeConfig) :
    ∀ (evs : List CycleEvent) (assets a : List Bool) (f : Bool),
      activeLoop cfg evs assets = some (a, f) → a.length = assets.length := by
  intro evs
  induction evs with
  | nil => intro assets a f h; cases h
  | cons ev evs ih =>
    intro assets a f h
    unfold activeLoop at h
    rcases hc : activeCycle cfg assets ev with ⟨a1, ex⟩
    rw [hc] at h
    have hl : a1.length = assets.length := by
      have h0 := activeCycle_length cfg assets ev
      rw [hc] at h0
      exact h0
    cases ex with
    | fatalReturn =>
      simp at h
      rw [← h.1]
      exact hl
    | brk =>
      simp at h
      rw [← h.1]
      exact hl
    | next =>
      simp at h
      exact (ih a1 a f h).trans hl

theorem drainLoop_length (cfg : TradeConfig) :
    ∀ (evs : List CycleEvent) (assets a : List Bool) (f : Bool),
      drainLoop cfg evs assets = some (a, f) → a.length = assets.length := by
  intro evs
  induction evs with
  | nil =>
    intro assets a f h
    unfold drainLoop at h
    by_cases hz : countOpen assets = 0
    · rw [if_pos hz] at h
      simp at h
      rw [← h.1]
    · rw [if_neg hz] at h
      cases h
  | cons ev evs ih =>
    intro assets a f h
    unfold drainLoop at h
    by_cases hz : countOpen assets = 0
    · rw [if_pos hz] at h
      simp at h
      rw [← h.1]
    · rw [if_neg hz] at h
      cases hf : ev.fetch with
      | fatal =>
        rw [hf] at h
        simp at h
        rw [← h.1]
      | transient =>
        rw [hf] at h
        simp at h
        rw [← h.1]
      | ok =>
        rw [hf] at h
        by_cases hr : (tryClosePositions cfg false assets ev.closes).2
        · simp only [hr, if_pos rfl] at h
          simp at h
          rw [← h.1]
          exact tryClosePositions_length cfg false assets ev.closes
        · simp only [hr] at h
          simp at h
          exact (ih _ a f h).trans (tryClosePositions_length cfg false assets ev.closes)

theorem tryClosePositions_forced_closed (cfg : TradeConfig) :
    ∀ (assets : List Bool) (evs : List CloseEvent),
      assets.length ≤ evs.length →
      (∀ e ∈ evs, e.sellErr = false ∧ e.insolvent = false) →
      countOpen (tryClosePositions cfg true assets evs).1 = 0 := by
  intro assets
  induction assets with
  | nil => intro evs _ _; cases evs <;> simp [tryClosePositions, countOpen]
  | cons isOpen rest ih =>
    intro evs hlen hgood
    cases evs with
    | nil => simp at hlen
    | cons e es =>
      have he := hgood e (List.mem_cons_self _ _)
      have hes : ∀ x ∈ es, x.sellErr = false ∧ x.insolvent = false :=
        fun x hx => hgood x (List.mem_cons_of_mem _ hx)
      have hlen' : rest.length ≤ es.length := by simpa using hlen
      cases isOpen with
      | false =>
        simp [tryClosePositions, countOpen, List.count_cons]
        have h0 := ih es hlen' hes
        simpa [countOpen] using h0
      | true =>
        cases hd : liquidationDecision cfg e.simRatioVal true with
        | none =>
          have h0 := liquidationDecision_force_isSome cfg e.simRatioVal
          rw [hd] at h0
          cases h0
        | some rs =>
          simp [tryClosePositions, he.1, he.2, hd, countOpen, List.count_cons]
          have h0 := ih es hlen' hes
          simpa [countOpen] using h0

theorem trade_sweep_counterexample :
    trade cfgFix [cycleOpenTwoFix] [cycleDrainInsolventFix] cycleSweepErrFix [false, false]
      = some ([false, true], false) ∧
    countOpen [false, true] = 1 ∧
    cycleOpenTwoFix.fetch ≠ .fatal ∧
    cycleDrainInsolventFix.fetch ≠ .fatal ∧
    cycleSweepErrFix.fetch ≠ .fatal := by
  with_unfolding_all decide

theorem trade_terminal_sweep_closes_all (cfg : TradeConfig)
    (activeEvs drainEvs : List CycleEvent) (sweepEv : CycleEvent)
    (initAssets final : List Bool)
    (hrun : trade cfg activeEvs drainEvs sweepEv initAssets = some (final, false))
    (hcover : initAssets.length ≤ sweepEv.closes.length)
    (hgood : ∀ e ∈ sweepEv.closes, e.sellErr = false ∧ e.insolvent = false) :
    countOpen final = 0 := by
  unfold trade at hrun
  split at hrun
  next => cases hrun
  next a1 heqA => simp at hrun
  next a1 heqA =>
    split at hrun
    next => cases hrun
    next a2 heqD => simp at hrun
    next a2 heqD =>
      split at hrun
      next heqF => simp at hrun
      next heqF => simp at hrun
      next heqF =>
        simp at hrun
        have hl1 := activeLoop_length cfg activeEvs initAssets a1 false heqA
        have hl2 := drainLoop_length cfg drainEvs a1 a2 false heqD
        rw [← hrun]
        exact tryClosePositions_forced_closed cfg a2 sweepEv.closes (by omega) hgood

theorem trade_terminal_sweep_closes_all_witness :
    countOpen [false] = 0 :=
  trade_terminal_sweep_closes_all cfgFix [cycleOpenOneFix] [cycleDrainCloseFix]
    cycleSweepOkFix [false] [false]
    (by with_unfolding_all decide) (by decide) (by decide)

end HypeTrain
